import Mathlib

/-!
Verification development for the sasl-oauth-rs XOAUTH2 SASL client plugin.

Shallow embedding of the core logic:
- `TokenFile` / `TokenStore` embed `src/token_store.rs` (token file parsing,
  lazy refresh, bounded retry, atomic persistence, modelled at the level of
  parsed JSON values; the filesystem, HTTP transport and clock are passed in
  explicitly as environment values).
- `Client` / `initialStep` / `tokenSentStep` / `Client.doStep` embed the
  two-step state machine of `src/client.rs` (SASL callback resolution is
  modelled by the resolved strings the callbacks would produce).
- The SASL result codes are the standard Cyrus `sasl.h` constants that the
  crate imports through its generated FFI bindings.
The diagnostics log (`src/log.rs`) is write-only and carries no data flow
into any decision, so it is omitted from the embedding.
-/

/-- 64-bit signed minimum, the lower bound of Rust's `i64`. -/
def i64Min : Int := -9223372036854775808

/-- 64-bit signed maximum, the upper bound of Rust's `i64`. -/
def i64Max : Int := 9223372036854775807

/-- SASL result code `SASL_OK` (0) from `sasl.h`. -/
def SASL_OK : Int := 0

/-- SASL result code `SASL_FAIL` (-1) from `sasl.h`. -/
def SASL_FAIL : Int := -1

/-- SASL result code `SASL_NOMEM` (-2) from `sasl.h`. -/
def SASL_NOMEM : Int := -2

/-- SASL result code `SASL_BADPROT` (-5) from `sasl.h`. -/
def SASL_BADPROT : Int := -5

/-- SASL result code `SASL_BADPARAM` (-7) from `sasl.h`. -/
def SASL_BADPARAM : Int := -7

/-- SASL result code `SASL_TRYAGAIN` (-8) from `sasl.h`. -/
def SASL_TRYAGAIN : Int := -8

/-- SASL result code `SASL_INTERACT` (2) from `sasl.h`. -/
def SASL_INTERACT : Int := 2

/-- A decimal digit character, as produced by Rust's integer `to_string`.
Only ever applied to values `< 10`. -/
def digitChar : Nat → Char
  | 0 => '0'
  | 1 => '1'
  | 2 => '2'
  | 3 => '3'
  | 4 => '4'
  | 5 => '5'
  | 6 => '6'
  | 7 => '7'
  | 8 => '8'
  | _ => '9'

/-- Numeric value of a decimal digit character. -/
def digitVal (c : Char) : Nat := c.toNat - 48

/-- Decimal digits of a natural number, most significant first
(embeds the digit production of Rust's `to_string`). -/
def natToDigits (n : Nat) : List Char :=
  if _h : n < 10 then [digitChar n]
  else natToDigits (n / 10) ++ [digitChar (n % 10)]
termination_by n
decreasing_by
  exact Nat.div_lt_self (by omega) (by omega)

/-- Decimal rendering of an `i64` value, embedding Rust's `i64::to_string`. -/
def intToString (v : Int) : String :=
  if v < 0 then String.mk ('-' :: natToDigits v.natAbs)
  else String.mk (natToDigits v.toNat)

/-- Accumulating decimal value of a digit list. -/
def digitsToNat : List Char → Nat → Nat
  | [], acc => acc
  | c :: rest, acc => digitsToNat rest (acc * 10 + digitVal c)

/-- Core of `i64` parsing after the optional sign has been stripped:
requires at least one character, all ASCII digits, and the signed value to
fit in `i64` (embeds Rust's `str::parse::<i64>` after sign handling). -/
def parseI64Core (sign : Int) (ds : List Char) : Option Int :=
  if ds = [] then none
  else if ds.all Char.isDigit then
    let v : Int := sign * (digitsToNat ds 0 : Nat)
    if i64Min ≤ v ∧ v ≤ i64Max then some v else none
  else none

/-- Embeds Rust's `str::parse::<i64>().ok()`: an optional single leading
sign followed by one or more ASCII digits, failing on overflow. -/
def parseI64 (s : String) : Option Int :=
  match s.data with
  | [] => none
  | c :: rest =>
    if c = '+' then parseI64Core 1 rest
    else if c = '-' then parseI64Core (-1) rest
    else parseI64Core 1 (c :: rest)

/-- JSON values, the model of `serde_json::Value` (integral numbers only;
the token-handling code paths never accept non-integral numbers). -/
inductive Json where
  | null
  | bool (b : Bool)
  | num (n : Int)
  | str (s : String)
  | arr (xs : List Json)
  | obj (fields : List (String × Json))

/-- First binding of a key in a JSON object's field list. -/
def lookupField : List (String × Json) → String → Option Json
  | [], _ => none
  | (k, v) :: rest, key => if k = key then some v else lookupField rest key

/-- Embeds `serde_json::Value::get` with a string key: a field lookup on
objects, `None` on every other value. -/
def Json.get : Json → String → Option Json
  | .obj fields, key => lookupField fields key
  | _, _ => none

/-- Embeds `serde_json::Value::as_str`. -/
def Json.asStr : Json → Option String
  | .str s => some s
  | _ => none

/-- Embeds `serde_json::Value::as_i64`: integral numbers within `i64` range. -/
def Json.asI64 : Json → Option Int
  | .num n => if i64Min ≤ n ∧ n ≤ i64Max then some n else none
  | _ => none

/-- `json.get(key).and_then(|v| v.as_str())`, the field access pattern used
throughout `client.rs` and `token_store.rs`. -/
def jsonStrField (j : Json) (key : String) : Option String :=
  (j.get key).bind Json.asStr

/-- `v.as_i64().or_else(|| v.as_str().and_then(|s| s.parse().ok()))`,
the `expires_in` extraction in `TokenStore::refresh`. -/
def jsonIntOrStr (v : Json) : Option Int :=
  match v.asI64 with
  | some n => some n
  | none => v.asStr.bind parseI64

/-- The `expires_in` value of a refresh response body. -/
def expiresInOf (j : Json) : Option Int :=
  (j.get "expires_in").bind jsonIntOrStr

/-- Parsed token file, embedding `struct TokenFile` of `token_store.rs`. -/
structure TokenFile where
  access_token : String
  refresh_token : String
  expiry : Option String
  user : Option String
  client_id : Option String
  client_secret : Option String
  token_endpoint : Option String
  refresh_window : Option String
deriving DecidableEq, Repr

/-- Decoder for `#[serde(default)] access_token: String`: missing field
defaults to the empty string, a present field must be a JSON string. -/
def decodeStrDefault : Option Json → Option String
  | none => some ""
  | some (Json.str s) => some s
  | some _ => none

/-- Decoder for the mandatory `refresh_token: String`: the field must be
present and a JSON string. -/
def decodeReqStr : Option Json → Option String
  | some (Json.str s) => some s
  | _ => none

/-- Decoder for `#[serde(default)] Option<String>` fields: missing or null
gives `None`, a string gives `Some`, anything else is a parse error. -/
def decodeOptStr : Option Json → Option (Option String)
  | none => some none
  | some Json.null => some none
  | some (Json.str s) => some (some s)
  | some _ => none

/-- Decoder for the `deserialize_string_or_int` fields (`expiry`,
`refresh_window`): missing or null gives `None`, a string is kept as-is, an
integer is rendered to its decimal string, anything else is a parse error. -/
def decodeStringOrInt : Option Json → Option (Option String)
  | none => some none
  | some Json.null => some none
  | some (Json.str s) => some (some s)
  | some (Json.num n) => some (some (intToString n))
  | some _ => none

/-- Embeds serde deserialization of `TokenFile` from a parsed JSON value
(a struct deserializes only from a JSON object; unknown fields are
ignored). -/
def TokenFile.fromJson : Json → Option TokenFile
  | Json.obj fields => do
    let atok ← decodeStrDefault (lookupField fields "access_token")
    let rt ← decodeReqStr (lookupField fields "refresh_token")
    let expiry ← decodeStringOrInt (lookupField fields "expiry")
    let user ← decodeOptStr (lookupField fields "user")
    let cid ← decodeOptStr (lookupField fields "client_id")
    let csec ← decodeOptStr (lookupField fields "client_secret")
    let tep ← decodeOptStr (lookupField fields "token_endpoint")
    let rw ← decodeStringOrInt (lookupField fields "refresh_window")
    some { access_token := atok, refresh_token := rt, expiry := expiry,
           user := user, client_id := cid, client_secret := csec,
           token_endpoint := tep, refresh_window := rw }
  | _ => none

/-- Rendering of `None` serde fields: `Option<String>` serializes to JSON
null when absent. -/
def optStrJson : Option String → Json
  | none => Json.null
  | some s => Json.str s

/-- Embeds serde serialization of `TokenFile` (derive `Serialize`): every
field is emitted in declaration order, `None` as null. -/
def TokenFile.toJson (t : TokenFile) : Json :=
  Json.obj [("access_token", Json.str t.access_token),
            ("refresh_token", Json.str t.refresh_token),
            ("expiry", optStrJson t.expiry),
            ("user", optStrJson t.user),
            ("client_id", optStrJson t.client_id),
            ("client_secret", optStrJson t.client_secret),
            ("token_endpoint", optStrJson t.token_endpoint),
            ("refresh_window", optStrJson t.refresh_window)]

/-- Process configuration, embedding the fields of `config.rs` consumed by
the token store (the logging flags feed only the omitted log). -/
structure Config where
  client_id : String
  client_secret : String
  token_endpoint : String
  refresh_window : Int
deriving DecidableEq, Repr

/-- `MAX_REFRESH_ATTEMPTS` of `token_store.rs`. -/
def MAX_REFRESH_ATTEMPTS : Int := 2

/-- In-memory token store, embedding `struct TokenStore`. -/
structure TokenStore where
  path : String
  token : TokenFile
  expiry : Int
  refresh_attempts : Int
deriving DecidableEq, Repr

/-- Embeds `TokenStore::new`: `contents` is the token file at `path` as a
parsed JSON value (`none` when the file cannot be read or its text is not
JSON). Field-level deserialization failures also yield `none`; on success
the effective expiry defaults to 0 when absent or unparsable. -/
def TokenStore.new (path : String) (contents : Option Json) : Option TokenStore :=
  match contents with
  | none => none
  | some j =>
    match TokenFile.fromJson j with
    | none => none
    | some token =>
      some { path := path, token := token,
             expiry := (token.expiry.bind parseI64).getD 0,
             refresh_attempts := 0 }

/-- Outcome of the HTTP round-trip in `TokenStore::refresh`: a transport
failure (including the client library turning 4xx/5xx statuses into
errors), or a response with its status and its body as a parsed JSON value
(`none` when the body text is not JSON). -/
inductive HttpOutcome where
  | transportErr
  | response (status : Int) (body : Option Json)

/-- External world of one refresh call: the HTTP outcome, the clock reading
used for the new expiry, and whether the temp-file write and rename
succeed. -/
structure RefreshEnv where
  http : HttpOutcome
  now : Int
  writeOk : Bool

/-- The form-encoded POST request a refresh sends, with each parameter
resolved from the per-token override first, else process configuration. -/
structure RefreshRequest where
  endpoint : String
  client_id : String
  client_secret : String
  grant_type : String
  refresh_token : String
deriving DecidableEq, Repr

/-- Result channel of `TokenStore::refresh` (`Result<(), i32>`). -/
inductive RefreshResult where
  | ok
  | err (code : Int)
deriving DecidableEq, Repr

/-- Full observable outcome of one `TokenStore::refresh` call: the store
state after the call, the returned result, the network request if one was
made, and the token file contents persisted if the write happened. -/
structure RefreshOutcome where
  store : TokenStore
  result : RefreshResult
  request : Option RefreshRequest
  persisted : Option TokenFile
deriving DecidableEq, Repr

/-- Success tail of `TokenStore::refresh` after the response body has been
validated: adopt the new access token, rotate the refresh token if the
response carries a different one, set expiry to `now + expires_in`, and
persist the updated record (write failure is `SASL_FAIL`). -/
def refreshApply (env : RefreshEnv) (s1 : TokenStore) (req : RefreshRequest)
    (resp : Json) (access_token : String) (expires_in : Int) : RefreshOutcome :=
  let tok1 : TokenFile := { s1.token with access_token := access_token }
  let tok2 : TokenFile :=
    match jsonStrField resp "refresh_token" with
    | some nr => if nr ≠ tok1.refresh_token then { tok1 with refresh_token := nr } else tok1
    | none => tok1
  let newExpiry : Int := env.now + expires_in
  let tok3 : TokenFile := { tok2 with expiry := some (intToString newExpiry) }
  let s2 : TokenStore := { s1 with token := tok3, expiry := newExpiry }
  if env.writeOk then
    { store := s2, result := .ok, request := some req, persisted := some tok3 }
  else
    { store := s2, result := .err SASL_FAIL, request := some req, persisted := none }

/-- The store after `self.refresh_attempts += 1`. -/
def attemptStore (s : TokenStore) : TokenStore :=
  { s with refresh_attempts := s.refresh_attempts + 1 }

/-- The POST request built by `TokenStore::refresh`, each parameter
resolved from the per-token override first, else process configuration. -/
def requestOf (cfg : Config) (s : TokenStore) : RefreshRequest :=
  { endpoint := s.token.token_endpoint.getD cfg.token_endpoint,
    client_id := s.token.client_id.getD cfg.client_id,
    client_secret := s.token.client_secret.getD cfg.client_secret,
    grant_type := "refresh_token",
    refresh_token := s.token.refresh_token }

/-- Outcome of every `SASL_BADPROT` early return in `TokenStore::refresh`
after the POST was made: counter already incremented, nothing persisted. -/
def refreshFailure (s1 : TokenStore) (req : RefreshRequest) : RefreshOutcome :=
  { store := s1, result := .err SASL_BADPROT, request := some req, persisted := none }

/-- Embeds `TokenStore::refresh`: fail immediately once the attempt counter
has reached `MAX_REFRESH_ATTEMPTS`; otherwise increment the counter, make
the POST, and demand a 200 status with a JSON body carrying an
`access_token` string and a positive `expires_in`. -/
def TokenStore.refresh (cfg : Config) (env : RefreshEnv) (s : TokenStore) : RefreshOutcome :=
  if s.refresh_attempts ≥ MAX_REFRESH_ATTEMPTS then
    { store := s, result := .err SASL_BADPROT, request := none, persisted := none }
  else
    let s1 : TokenStore := attemptStore s
    let req : RefreshRequest := requestOf cfg s1
    match env.http with
    | .transportErr => refreshFailure s1 req
    | .response status body =>
      if status ≠ 200 then refreshFailure s1 req
      else
        match body with
        | none => refreshFailure s1 req
        | some resp =>
          match jsonStrField resp "access_token" with
          | none => refreshFailure s1 req
          | some access_token =>
            match expiresInOf resp with
            | none => refreshFailure s1 req
            | some expires_in =>
              if expires_in ≤ 0 then refreshFailure s1 req
              else refreshApply env s1 req resp access_token expires_in

/-- The serialized content `TokenStore::write` persists (temp file then
rename to `path`): the in-memory record as JSON. -/
def TokenStore.writeContent (s : TokenStore) : Json :=
  TokenFile.toJson s.token

/-- Result channel of `TokenStore::get_access_token`
(`Result<String, i32>`). -/
inductive TokenResultValue where
  | ok (token : String)
  | err (code : Int)
deriving DecidableEq, Repr

/-- Full observable outcome of one `TokenStore::get_access_token` call. -/
structure TokenResult where
  store : TokenStore
  result : TokenResultValue
  refreshCalls : Nat
  request : Option RefreshRequest
  persisted : Option TokenFile
deriving DecidableEq, Repr

/-- Embeds `TokenStore::get_access_token`: compute the effective refresh
window (token file override when parsable, else configuration default),
refresh when `now + window >= expiry`, then return the stored access
token. -/
def TokenStore.getAccessToken (cfg : Config) (env : RefreshEnv) (now : Int)
    (s : TokenStore) : TokenResult :=
  let refresh_window := (s.token.refresh_window.bind parseI64).getD cfg.refresh_window
  if now + refresh_window ≥ s.expiry then
    let r := TokenStore.refresh cfg env s
    match r.result with
    | .err e =>
      { store := r.store, result := .err e, refreshCalls := 1,
        request := r.request, persisted := r.persisted }
    | .ok =>
      { store := r.store, result := .ok r.store.token.access_token, refreshCalls := 1,
        request := r.request, persisted := r.persisted }
  else
    { store := s, result := .ok s.token.access_token, refreshCalls := 0,
      request := none, persisted := none }

/-- Session state of `client.rs`. -/
inductive State where
  | Initial
  | TokenSent
deriving DecidableEq, Repr

/-- Per-exchange session, embedding `struct Client` (the diagnostics log is
omitted). -/
structure Client where
  state : State
  user : String
  response : String
  token : Option TokenStore
deriving DecidableEq, Repr

/-- The XOAUTH2 wire response built by `Client::send_token`. -/
def wireResponse (user token : String) : String :=
  "user=" ++ user ++ "\x01auth=Bearer " ++ token ++ "\x01\x01"

/-- Server bytes handed to a step: empty, non-empty but not JSON, or a
parsed JSON value. -/
inductive ServerMsg where
  | empty
  | unparsable
  | json (j : Json)

/-- Host-side inputs of the first step: the strings the SASL prompts and
callbacks resolve to, pointer availability, allocator health for the
prompt request, the canonicalization hook's result when one is installed,
and the clock reading `get_access_token` uses. -/
structure InitialEnv where
  promptsGiven : Bool
  promptAuth : String
  promptPass : String
  cbAuth : Option String
  cbPass : Option String
  promptNeedAvail : Bool
  mallocOk : Bool
  canon : Option Int
  now : Int

/-- Observable outcome of one `Client::do_step` call. -/
structure StepResult where
  client : Client
  err : Int
  toServer : String
  refreshCalls : Nat
deriving DecidableEq, Repr

/-- Input resolution in `initial_step`: take the prompt value when prompts
were supplied, fall back to the callback when the result is still empty. -/
def resolveInput (promptsGiven : Bool) (prompt : String) (cb : Option String) : String :=
  let a := if promptsGiven then prompt else ""
  if a = "" then cb.getD "" else a

/-- Tail of `initial_step` after canonicalization: build the store from the
resolved path, apply the token file's user override, fetch a valid access
token, emit the wire response and move to `TokenSent`. -/
def initialStepAfterCanon (cfg : Config) (ienv : InitialEnv)
    (fs : String → Option Json) (env : RefreshEnv) (c : Client)
    (authName password : String) : StepResult :=
  match TokenStore.new password (fs password) with
  | none =>
    { client := { c with user := authName }, err := SASL_FAIL,
      toServer := "", refreshCalls := 0 }
  | some store =>
    let user := match store.token.user with
      | some u => u
      | none => authName
    let tr := TokenStore.getAccessToken cfg env ienv.now store
    match tr.result with
    | .err e =>
      { client := { c with user := user, token := some tr.store }, err := e,
        toServer := "", refreshCalls := tr.refreshCalls }
    | .ok tok =>
      let c2 : Client :=
        { c with user := user, token := some tr.store,
                 state := State.TokenSent, response := wireResponse user tok }
      { client := c2, err := SASL_OK, toServer := wireResponse user tok,
        refreshCalls := tr.refreshCalls }

/-- Embeds `Client::initial_step`: resolve identity and token-file path
from prompts/callbacks, request the missing prompts when the out-pointer
allows it, run the canonicalization hook, then hand off to the store. -/
def initialStep (cfg : Config) (ienv : InitialEnv) (fs : String → Option Json)
    (env : RefreshEnv) (c : Client) : StepResult :=
  let authName := resolveInput ienv.promptsGiven ienv.promptAuth ienv.cbAuth
  let password := resolveInput ienv.promptsGiven ienv.promptPass ienv.cbPass
  if ienv.promptNeedAvail ∧ (authName = "" ∨ password = "") then
    { client := c, err := if ienv.mallocOk then SASL_INTERACT else SASL_NOMEM,
      toServer := "", refreshCalls := 0 }
  else
    match ienv.canon with
    | some e =>
      if e ≠ SASL_OK then
        { client := c, err := e, toServer := "", refreshCalls := 0 }
      else initialStepAfterCanon cfg ienv fs env c authName password
    | none => initialStepAfterCanon cfg ienv fs env c authName password

/-- Embeds `Client::token_sent_step`: empty bytes or unparsable bytes mean
success; a JSON status of "400"/"401" forces a refresh (try-again on
refresh success, the refresh error otherwise); any other non-empty status
is a protocol error; a blank or absent status is success. -/
def tokenSentStep (cfg : Config) (env : RefreshEnv) (msg : ServerMsg)
    (c : Client) : StepResult :=
  match msg with
  | .empty => { client := c, err := SASL_OK, toServer := "", refreshCalls := 0 }
  | .unparsable => { client := c, err := SASL_OK, toServer := "", refreshCalls := 0 }
  | .json j =>
    match jsonStrField j "status" with
    | some status =>
      if status = "400" ∨ status = "401" then
        match c.token with
        | some store =>
          let r := TokenStore.refresh cfg env store
          match r.result with
          | .err e =>
            { client := { c with token := some r.store }, err := e,
              toServer := "", refreshCalls := 1 }
          | .ok =>
            { client := { c with token := some r.store }, err := SASL_TRYAGAIN,
              toServer := "", refreshCalls := 1 }
        | none =>
          { client := c, err := SASL_BADPROT, toServer := "", refreshCalls := 0 }
      else
        if status ≠ "" then
          { client := c, err := SASL_BADPROT, toServer := "", refreshCalls := 0 }
        else
          { client := c, err := SASL_OK, toServer := "", refreshCalls := 0 }
    | none => { client := c, err := SASL_OK, toServer := "", refreshCalls := 0 }

/-- Embeds `Client::do_step`: dispatch on the session state. -/
def Client.doStep (cfg : Config) (ienv : InitialEnv) (fs : String → Option Json)
    (env : RefreshEnv) (msg : ServerMsg) (c : Client) : StepResult :=
  match c.state with
  | .Initial => initialStep cfg ienv fs env c
  | .TokenSent => tokenSentStep cfg env msg c

/-- Network-call count of a sequence of forced refreshes against one store
instance, threading the store state through. -/
def runRefreshNet (cfg : Config) (s : TokenStore) : List RefreshEnv → Nat
  | [] => 0
  | e :: rest =>
    let r := TokenStore.refresh cfg e s
    (if r.request.isSome then 1 else 0) + runRefreshNet cfg r.store rest

/-- The failed-refresh record-preservation property of one refresh call:
the token record and expiry are untouched, the attempt counter was
incremented, the call failed with the protocol error, and nothing was
persisted. -/
def refreshRecordPreserved (cfg : Config) (env : RefreshEnv) (s : TokenStore) : Prop :=
  (TokenStore.refresh cfg env s).store.token = s.token ∧
  (TokenStore.refresh cfg env s).store.expiry = s.expiry ∧
  (TokenStore.refresh cfg env s).store.refresh_attempts = s.refresh_attempts + 1 ∧
  (TokenStore.refresh cfg env s).result = RefreshResult.err SASL_BADPROT ∧
  (TokenStore.refresh cfg env s).persisted = none

/-- A sample process configuration for concrete evaluations. -/
def cfg0 : Config :=
  { client_id := "cid", client_secret := "csec",
    token_endpoint := "https://tok", refresh_window := 10 }

/-- A well-formed token file value with a far-future expiry. -/
def goodTokenJson : Json :=
  Json.obj [("refresh_token", Json.str "rt1"), ("access_token", Json.str "tok"),
            ("expiry", Json.str "9999999999")]

/-- A filesystem with the good token file at `/tok`. -/
def fs0 : String → Option Json :=
  fun p => if p = "/tok" then some goodTokenJson else none

/-- A refresh environment whose network would fail (unused when the token
is not due). -/
def env0 : RefreshEnv := { http := HttpOutcome.transportErr, now := 0, writeOk := true }

/-- First-step inputs with both prompts resolved and no canon hook. -/
def ienv0 : InitialEnv :=
  { promptsGiven := true, promptAuth := "a@b.com", promptPass := "/tok",
    cbAuth := none, cbPass := none, promptNeedAvail := true, mallocOk := true,
    canon := none, now := 0 }

/-- A freshly created session. -/
def c0 : Client := { state := State.Initial, user := "", response := "", token := none }

/-- A token record holding an already-expired token. -/
def tfA : TokenFile :=
  { access_token := "atk0", refresh_token := "rt0", expiry := some "0",
    user := none, client_id := none, client_secret := none,
    token_endpoint := none, refresh_window := none }

/-- A fresh store for `tfA`. -/
def sA : TokenStore := { path := "/p", token := tfA, expiry := 0, refresh_attempts := 0 }

/-- The same store with the attempt counter already at the maximum. -/
def sMax : TokenStore := { sA with refresh_attempts := 2 }

/-- A 200 refresh response whose `access_token` is the empty string. -/
def bodyEmptyTok : Json :=
  Json.obj [("access_token", Json.str ""), ("expires_in", Json.num 3600)]

/-- Environment delivering `bodyEmptyTok` with status 200. -/
def envA : RefreshEnv :=
  { http := HttpOutcome.response 200 (some bodyEmptyTok), now := 0, writeOk := true }

/-- A fully valid refresh response body. -/
def bodyGood : Json :=
  Json.obj [("access_token", Json.str "T2"), ("expires_in", Json.num 3600)]

/-- Environment delivering the valid body with the 2xx status 201. -/
def envB : RefreshEnv :=
  { http := HttpOutcome.response 201 (some bodyGood), now := 0, writeOk := true }

/-- Environment delivering the valid body with status 200. -/
def envC : RefreshEnv :=
  { http := HttpOutcome.response 200 (some bodyGood), now := 0, writeOk := true }

/-- A token file whose `refresh_token` is present but empty. -/
def emptyRTJson : Json := Json.obj [("refresh_token", Json.str "")]

/-- A session sitting in the `TokenSent` state owning the fresh store. -/
def cTS : Client :=
  { state := State.TokenSent, user := "a@b.com",
    response := wireResponse "a@b.com" "atk0", token := some sA }

/-- Server bytes carrying a 401 rejection status. -/
def status401Json : Json := Json.obj [("status", Json.str "401")]

/-- The parsed form of `goodTokenJson`. -/
def tf0 : TokenFile :=
  { access_token := "tok", refresh_token := "rt1", expiry := some "9999999999",
    user := none, client_id := none, client_secret := none,
    token_endpoint := none, refresh_window := none }

/-- The store `TokenStore::new` builds from `goodTokenJson`. -/
def s0 : TokenStore :=
  { path := "/tok", token := tf0, expiry := 9999999999, refresh_attempts := 0 }

/-- A record in the shape `TokenStore::write` persists. -/
def tfW : TokenFile :=
  { access_token := "atW", refresh_token := "rtW", expiry := some (intToString 12345),
    user := none, client_id := none, client_secret := none,
    token_endpoint := none, refresh_window := none }

/-- A store holding `tfW`. -/
def sW : TokenStore :=
  { path := "/w", token := tfW, expiry := 12345, refresh_attempts := 0 }

/-- Server bytes carrying the non-retryable status 535. -/
def status535Json : Json := Json.obj [("status", Json.str "535")]

theorem digitVal_digitChar {d : Nat} (h : d < 10) : digitVal (digitChar d) = d := by
  interval_cases d <;> rfl

theorem isDigit_digitChar {d : Nat} (h : d < 10) : (digitChar d).isDigit = true := by
  interval_cases d <;> rfl

theorem natToDigits_ne_nil (n : Nat) : natToDigits n ≠ [] := by
  rw [natToDigits]
  split
  · simp
  · simp

theorem natToDigits_all_digits (n : Nat) : (natToDigits n).all Char.isDigit = true := by
  induction n using Nat.strong_induction_on with
  | _ n ih =>
    rw [natToDigits]
    split
    · next h => simp [List.all, isDigit_digitChar h]
    · next h =>
      rw [List.all_append]
      have h10 : n / 10 < n := Nat.div_lt_self (by omega) (by omega)
      simp [ih _ h10, List.all, isDigit_digitChar (Nat.mod_lt n (by omega))]

theorem digitsToNat_append (l1 l2 : List Char) :
    ∀ acc, digitsToNat (l1 ++ l2) acc = digitsToNat l2 (digitsToNat l1 acc) := by
  induction l1 with
  | nil => intro acc; rfl
  | cons c rest ih => intro acc; simp [digitsToNat, ih]

theorem digitsToNat_natToDigits (n : Nat) : digitsToNat (natToDigits n) 0 = n := by
  induction n using Nat.strong_induction_on with
  | _ n ih =>
    rw [natToDigits]
    split
    · next h => simp [digitsToNat, digitVal_digitChar h]
    · next h =>
      have h10 : n / 10 < n := Nat.div_lt_self (by omega) (by omega)
      rw [digitsToNat_append, ih _ h10]
      simp [digitsToNat, digitVal_digitChar (Nat.mod_lt n (by omega) : n % 10 < 10)]
      omega

theorem isDigit_ne_sign {c : Char} (h : c.isDigit = true) : c ≠ '+' ∧ c ≠ '-' := by
  constructor <;> rintro rfl <;> simp [Char.isDigit] at h

theorem parseI64Core_natToDigits (sign : Int) (m : Nat) :
    parseI64Core sign (natToDigits m) =
      if i64Min ≤ sign * m ∧ sign * m ≤ i64Max then some (sign * m) else none := by
  rw [parseI64Core]
  rw [if_neg (natToDigits_ne_nil m)]
  rw [if_pos (natToDigits_all_digits m)]
  rw [digitsToNat_natToDigits]

theorem parseI64_intToString (v : Int) (h1 : i64Min ≤ v) (h2 : v ≤ i64Max) :
    parseI64 (intToString v) = some v := by
  by_cases hv : v < 0
  · have hdata : (intToString v).data = '-' :: natToDigits v.natAbs := by
      simp [intToString, hv]
    rw [parseI64, hdata]
    show parseI64Core (-1) (natToDigits v.natAbs) = some v
    rw [parseI64Core_natToDigits]
    have habs : (-1 : Int) * (v.natAbs : Nat) = v := by omega
    rw [habs, if_pos ⟨h1, h2⟩]
  · push_neg at hv
    have hdata : (intToString v).data = natToDigits v.toNat := by
      simp [intToString, not_lt.mpr hv]
    obtain ⟨c, rest, hcr⟩ : ∃ c rest, natToDigits v.toNat = c :: rest := by
      cases hnd : natToDigits v.toNat with
      | nil => exact absurd hnd (natToDigits_ne_nil _)
      | cons c rest => exact ⟨c, rest, rfl⟩
    have hdig : c.isDigit = true := by
      have := natToDigits_all_digits v.toNat
      rw [hcr] at this
      simp [List.all] at this
      exact this.1
    obtain ⟨hp, hm⟩ := isDigit_ne_sign hdig
    rw [parseI64, hdata, hcr]
    show (if c = '+' then parseI64Core 1 rest
          else if c = '-' then parseI64Core (-1) rest
          else parseI64Core 1 (c :: rest)) = some v
    rw [if_neg hp, if_neg hm, ← hcr]
    rw [parseI64Core_natToDigits]
    have hto : (1 : Int) * (v.toNat : Nat) = v := by omega
    rw [hto, if_pos ⟨h1, h2⟩]

theorem fromJson_toJson (t : TokenFile) : TokenFile.fromJson (TokenFile.toJson t) = some t := by
  obtain ⟨a, r, e, u, ci, cs, te, rw⟩ := t
  cases e <;> cases u <;> cases ci <;> cases cs <;> cases te <;> cases rw <;> rfl

theorem refresh_maxed (cfg : Config) (env : RefreshEnv) (s : TokenStore)
    (h : MAX_REFRESH_ATTEMPTS ≤ s.refresh_attempts) :
    TokenStore.refresh cfg env s =
      { store := s, result := .err SASL_BADPROT, request := none, persisted := none } := by
  unfold TokenStore.refresh
  rw [if_pos h]

theorem refresh_not_maxed (cfg : Config) (env : RefreshEnv) (s : TokenStore)
    (h : s.refresh_attempts < MAX_REFRESH_ATTEMPTS) :
    (TokenStore.refresh cfg env s).store.refresh_attempts = s.refresh_attempts + 1 ∧
    (TokenStore.refresh cfg env s).request.isSome = true := by
  unfold TokenStore.refresh refreshApply
  rw [if_neg (by omega)]
  rcases env with ⟨http, now, writeOk⟩
  cases http with
  | transportErr => simp [refreshFailure, attemptStore]
  | response status body =>
    by_cases hst : status ≠ 200
    · simp [hst, refreshFailure, attemptStore]
    · simp only [hst, if_false, ite_false, if_neg hst]
      cases body with
      | none => simp [refreshFailure, attemptStore]
      | some resp =>
        simp only
        cases hat : jsonStrField resp "access_token" with
        | none => simp [refreshFailure, attemptStore]
        | some atok =>
          simp only
          cases hei : expiresInOf resp with
          | none => simp [refreshFailure, attemptStore]
          | some ei =>
            simp only
            by_cases hpos : ei ≤ 0
            · simp [hpos, refreshFailure, attemptStore]
            · simp only [hpos, if_false, if_neg hpos]
              cases hrot : jsonStrField resp "refresh_token" with
              | none => by_cases hw : writeOk <;> simp [hw, attemptStore]
              | some nr =>
                by_cases hne : nr ≠ atok <;> by_cases hw : writeOk <;>
                  simp [hne, hw, attemptStore]

theorem refresh_err_codes (cfg : Config) (env : RefreshEnv) (s : TokenStore) (e : Int)
    (h : (TokenStore.refresh cfg env s).result = RefreshResult.err e) :
    e = SASL_BADPROT ∨ e = SASL_FAIL := by
  unfold TokenStore.refresh refreshApply at h
  split at h
  · simp at h; omega
  · split at h
    · simp [refreshFailure] at h; omega
    · split at h
      · simp [refreshFailure] at h; omega
      · split at h
        · simp [refreshFailure] at h; omega
        · split at h
          · simp [refreshFailure] at h; omega
          · split at h
            · simp [refreshFailure] at h; omega
            · split at h
              · simp [refreshFailure] at h; omega
              · dsimp only at h
                split at h
                · simp at h
                · simp at h; omega

theorem runRefreshNet_le (cfg : Config) (envs : List RefreshEnv) :
    ∀ s : TokenStore, runRefreshNet cfg s envs ≤ (MAX_REFRESH_ATTEMPTS - s.refresh_attempts).toNat := by
  induction envs with
  | nil => intro s; simp [runRefreshNet]
  | cons e rest ih =>
    intro s
    rw [runRefreshNet]
    by_cases h : MAX_REFRESH_ATTEMPTS ≤ s.refresh_attempts
    · rw [refresh_maxed cfg e s h]
      simpa using le_trans (ih s) (by omega)
    · have hlt : s.refresh_attempts < MAX_REFRESH_ATTEMPTS := by omega
      obtain ⟨hinc, hsome⟩ := refresh_not_maxed cfg e s hlt
      have hrest := ih (TokenStore.refresh cfg e s).store
      rw [hinc] at hrest
      rw [hsome]
      simp only [if_true]
      have : MAX_REFRESH_ATTEMPTS = 2 := rfl
      omega

/-- Claim C2: a forced refresh that begins with the attempt counter already
at the maximum (2) makes no network call and fails immediately with the
retry-exceeded error; every other attempt increments the counter and makes
the network call, so any sequence of forced refreshes on one store instance
makes at most 2 network calls. -/
theorem c2_refresh_retry_ceiling :
    (∀ (cfg : Config) (env : RefreshEnv) (s : TokenStore),
        MAX_REFRESH_ATTEMPTS ≤ s.refresh_attempts →
        (TokenStore.refresh cfg env s).request = none ∧
        (TokenStore.refresh cfg env s).result = RefreshResult.err SASL_BADPROT) ∧
    (∀ (cfg : Config) (env : RefreshEnv) (s : TokenStore),
        s.refresh_attempts < MAX_REFRESH_ATTEMPTS →
        (TokenStore.refresh cfg env s).request.isSome = true ∧
        (TokenStore.refresh cfg env s).store.refresh_attempts = s.refresh_attempts + 1) ∧
    (∀ (cfg : Config) (envs : List RefreshEnv) (s : TokenStore),
        s.refresh_attempts = 0 → runRefreshNet cfg s envs ≤ 2) := by
  refine ⟨fun cfg env s h => ?_, fun cfg env s h => ?_, fun cfg envs s h => ?_⟩
  · rw [refresh_maxed cfg env s h]
    exact ⟨rfl, rfl⟩
  · obtain ⟨hinc, hsome⟩ := refresh_not_maxed cfg env s h
    exact ⟨hsome, hinc⟩
  · have := runRefreshNet_le cfg envs s
    rw [h] at this
    simpa using this

/-- Claim C2 witness: with the counter at the maximum no request is made,
with a fresh store the counter increments, and a triple of forced refreshes
on a fresh store makes at most 2 network calls. -/
theorem c2_refresh_retry_ceiling_witness :
    (TokenStore.refresh cfg0 env0 sMax).request = none ∧
    (TokenStore.refresh cfg0 envC sA).store.refresh_attempts = 1 ∧
    runRefreshNet cfg0 sA [envC, envC, envC] ≤ 2 := by
  refine ⟨(c2_refresh_retry_ceiling.1 cfg0 env0 sMax (by decide)).1, ?_, ?_⟩
  · exact (c2_refresh_retry_ceiling.2.1 cfg0 envC sA (by decide)).2
  · exact c2_refresh_retry_ceiling.2.2 cfg0 [envC, envC, envC] sA (by decide)

theorem refresh_failure_cases (cfg : Config) (env : RefreshEnv) (s : TokenStore)
    (h : s.refresh_attempts < MAX_REFRESH_ATTEMPTS)
    (hfail : ∀ body, env.http = HttpOutcome.response 200 (some body) →
      jsonStrField body "access_token" = none ∨
      expiresInOf body = none ∨ ∃ ei, expiresInOf body = some ei ∧ ei ≤ 0) :
    TokenStore.refresh cfg env s = refreshFailure (attemptStore s) (requestOf cfg (attemptStore s)) := by
  unfold TokenStore.refresh
  rw [if_neg (by omega)]
  rcases env with ⟨http, now, writeOk⟩
  cases http with
  | transportErr => rfl
  | response status body =>
    by_cases hst : status ≠ 200
    · simp only [if_pos hst]
    · push_neg at hst
      subst hst
      simp only [ne_eq, not_true_eq_false, if_false, ite_false]
      cases body with
      | none => rfl
      | some resp =>
        have := hfail resp rfl
        simp only
        rcases this with hat | hei | ⟨ei, hei, hpos⟩
        · rw [hat]
        · rw [hei]
          cases hat : jsonStrField resp "access_token" <;> simp [hei]
        · rw [hei]
          cases hat : jsonStrField resp "access_token" with
          | none => simp
          | some atok => simp [hei, if_pos hpos, hpos]

theorem preserved_of_failure (cfg : Config) (env : RefreshEnv) (s : TokenStore)
    (h : TokenStore.refresh cfg env s =
         refreshFailure (attemptStore s) (requestOf cfg (attemptStore s))) :
    refreshRecordPreserved cfg env s := by
  unfold refreshRecordPreserved
  rw [h]
  exact ⟨rfl, rfl, rfl, rfl, rfl⟩

/-- Claim C10: every refresh failure occurring before a validated response
body (retry-exceeded, transport error, bad status, unparsable body, missing
access_token, missing or non-positive expires_in) leaves the in-memory
token record and expiry exactly as they were; the attempt counter is
incremented in all of these cases except retry-exceeded, where the whole
store is unchanged. -/
theorem c10_failed_refresh_preserves_record (cfg : Config) (env : RefreshEnv) (s : TokenStore) :
    (MAX_REFRESH_ATTEMPTS ≤ s.refresh_attempts →
        (TokenStore.refresh cfg env s).store = s ∧
        (TokenStore.refresh cfg env s).result = RefreshResult.err SASL_BADPROT ∧
        (TokenStore.refresh cfg env s).persisted = none) ∧
    (s.refresh_attempts < MAX_REFRESH_ATTEMPTS →
        (env.http = HttpOutcome.transportErr → refreshRecordPreserved cfg env s) ∧
        (∀ st b, env.http = HttpOutcome.response st b → st ≠ 200 →
            refreshRecordPreserved cfg env s) ∧
        (env.http = HttpOutcome.response 200 none → refreshRecordPreserved cfg env s) ∧
        (∀ b, env.http = HttpOutcome.response 200 (some b) →
            jsonStrField b "access_token" = none → refreshRecordPreserved cfg env s) ∧
        (∀ b, env.http = HttpOutcome.response 200 (some b) →
            expiresInOf b = none → refreshRecordPreserved cfg env s) ∧
        (∀ b ei, env.http = HttpOutcome.response 200 (some b) →
            expiresInOf b = some ei → ei ≤ 0 → refreshRecordPreserved cfg env s)) := by
  constructor
  · intro h
    rw [refresh_maxed cfg env s h]
    exact ⟨rfl, rfl, rfl⟩
  · intro h
    refine ⟨fun hh => ?_, fun st b hh hst => ?_, fun hh => ?_,
            fun b hh hat => ?_, fun b hh hei => ?_, fun b ei hh hei hpos => ?_⟩ <;>
      refine preserved_of_failure cfg env s (refresh_failure_cases cfg env s h ?_) <;>
      intro body heq <;> rw [hh] at heq
    · exact HttpOutcome.noConfusion heq
    · injection heq with h1 h2
      exact absurd h1 hst
    · injection heq with h1 h2
      exact Option.noConfusion h2
    · injection heq with h1 h2
      injection h2 with h3
      exact Or.inl (h3 ▸ hat)
    · injection heq with h1 h2
      injection h2 with h3
      exact Or.inr (Or.inl (h3 ▸ hei))
    · injection heq with h1 h2
      injection h2 with h3
      exact Or.inr (Or.inr ⟨ei, h3 ▸ hei, hpos⟩)

/-- Claim C10 witness. -/
theorem c10_failed_refresh_preserves_record_witness :
    (TokenStore.refresh cfg0 env0 sMax).store = sMax ∧
    refreshRecordPreserved cfg0 env0 sA := by
  exact ⟨((c10_failed_refresh_preserves_record cfg0 env0 sMax).1 (by decide)).1,
         (((c10_failed_refresh_preserves_record cfg0 env0 sA).2 (by decide)).1 rfl)⟩

/-- Claim C5 (amended): for a refresh attempt below the retry ceiling whose
round-trip returns status exactly 200 with a parsable JSON body, the
refresh fails with a protocol error unless the body carries an
`access_token` string (which may be empty) and a positive `expires_in`;
when it does, the in-memory access token becomes the received value, the
expiry becomes now + expires_in, a differing response `refresh_token`
replaces the held one while an absent one leaves it unchanged, and when the
write succeeds the full updated record is persisted. -/
theorem c5_refresh_success_updates (cfg : Config) (env : RefreshEnv) (s : TokenStore)
    (body : Json) (hat : s.refresh_attempts < MAX_REFRESH_ATTEMPTS)
    (hhttp : env.http = HttpOutcome.response 200 (some body)) :
    ((jsonStrField body "access_token" = none ∨ expiresInOf body = none ∨
        (∃ ei, expiresInOf body = some ei ∧ ei ≤ 0)) →
      (TokenStore.refresh cfg env s).result = RefreshResult.err SASL_BADPROT) ∧
    (∀ a ei, jsonStrField body "access_token" = some a → expiresInOf body = some ei →
      0 < ei →
      (TokenStore.refresh cfg env s).store.token.access_token = a ∧
      (TokenStore.refresh cfg env s).store.expiry = env.now + ei ∧
      (TokenStore.refresh cfg env s).store.token.expiry = some (intToString (env.now + ei)) ∧
      (∀ nr, jsonStrField body "refresh_token" = some nr →
        (TokenStore.refresh cfg env s).store.token.refresh_token = nr) ∧
      (jsonStrField body "refresh_token" = none →
        (TokenStore.refresh cfg env s).store.token.refresh_token = s.token.refresh_token) ∧
      (env.writeOk = true →
        (TokenStore.refresh cfg env s).result = RefreshResult.ok ∧
        (TokenStore.refresh cfg env s).persisted =
          some (TokenStore.refresh cfg env s).store.token)) := by
  constructor
  · intro hfail
    rw [refresh_failure_cases cfg env s hat ?_]
    · rfl
    · intro b heq
      rw [hhttp] at heq
      injection heq with h1 h2
      injection h2 with h3
      exact h3 ▸ hfail
  · intro a ei ha hei hpos
    have hred : TokenStore.refresh cfg env s =
        refreshApply env (attemptStore s) (requestOf cfg (attemptStore s)) body a ei := by
      unfold TokenStore.refresh
      rw [if_neg (by omega)]
      rcases env with ⟨http, now, writeOk⟩
      simp only at hhttp
      rw [hhttp]
      simp only [ne_eq, not_true_eq_false, if_false, ite_false]
      rw [ha, hei]
      simp [if_neg (not_le.mpr hpos), not_le.mpr hpos]
    rw [hred]
    unfold refreshApply
    rcases hrot : jsonStrField body "refresh_token" with _ | nr
    · by_cases hw : env.writeOk <;> simp [hw, attemptStore]
    · by_cases hne : nr = s.token.refresh_token <;> by_cases hw : env.writeOk <;>
        simp [hne, hw, attemptStore]

/-- Claim C5 witness: a valid 200 response with access_token "T2" and
expires_in 3600 succeeds and updates the record. -/
theorem c5_refresh_success_updates_witness :
    (TokenStore.refresh cfg0 envC sA).store.token.access_token = "T2" ∧
    (TokenStore.refresh cfg0 envC sA).store.expiry = (0 : Int) + 3600 ∧
    (TokenStore.refresh cfg0 envC sA).result = RefreshResult.ok := by
  have h := (c5_refresh_success_updates cfg0 envC sA bodyGood (by decide) rfl).2
      "T2" 3600 rfl rfl (by decide)
  exact ⟨h.1, h.2.1, (h.2.2.2.2.2 rfl).1⟩

/-- Claim C5 counterexample: the code accepts a 200 body whose access_token
is the empty string (the claim demands a protocol error there), and rejects
the 2xx status 201 even with a fully valid body (the claim demands success
for any 2xx). -/
theorem c5_counterexample :
    (TokenStore.refresh cfg0 envA sA).result = RefreshResult.ok ∧
    (TokenStore.refresh cfg0 envA sA).store.token.access_token = "" ∧
    (TokenStore.refresh cfg0 envB sA).result = RefreshResult.err SASL_BADPROT := by
  exact ⟨rfl, rfl, rfl⟩

/-- Claim C3: get_access_token computes the effective refresh window as the
token file's parsable override, else the configuration default, refreshes
exactly once when now + window >= expiry and makes no network call
otherwise, and returns the stored access token. -/
theorem c3_get_access_token (cfg : Config) (env : RefreshEnv) (now : Int)
    (s : TokenStore) (w : Int)
    (hw : (∃ o, s.token.refresh_window = some o ∧ parseI64 o = some w) ∨
          (s.token.refresh_window.bind parseI64 = none ∧ w = cfg.refresh_window)) :
    (now + w ≥ s.expiry →
      (TokenStore.getAccessToken cfg env now s).refreshCalls = 1 ∧
      ∀ t, (TokenStore.getAccessToken cfg env now s).result = TokenResultValue.ok t →
        t = (TokenStore.getAccessToken cfg env now s).store.token.access_token) ∧
    (now + w < s.expiry →
      (TokenStore.getAccessToken cfg env now s).refreshCalls = 0 ∧
      (TokenStore.getAccessToken cfg env now s).request = none ∧
      (TokenStore.getAccessToken cfg env now s).result =
        TokenResultValue.ok s.token.access_token ∧
      (TokenStore.getAccessToken cfg env now s).store = s) := by
  have hwin : (s.token.refresh_window.bind parseI64).getD cfg.refresh_window = w := by
    rcases hw with ⟨o, ho, hp⟩ | ⟨hn, hd⟩
    · rw [ho]
      simp [hp]
    · rw [hn, hd]
      rfl
  constructor
  · intro hdue
    simp only [TokenStore.getAccessToken]
    rw [hwin, if_pos hdue]
    cases hres : (TokenStore.refresh cfg env s).result with
    | err e => exact ⟨rfl, fun t ht => TokenResultValue.noConfusion ht⟩
    | ok =>
      refine ⟨rfl, fun t ht => ?_⟩
      injection ht with h1
      exact h1.symm
  · intro hnot
    simp only [TokenStore.getAccessToken]
    rw [hwin, if_neg (not_le.mpr hnot)]
    exact ⟨rfl, rfl, rfl, rfl⟩

/-- Claim C3 witness. -/
theorem c3_get_access_token_witness :
    (TokenStore.getAccessToken cfg0 env0 0 s0).refreshCalls = 0 ∧
    (TokenStore.getAccessToken cfg0 env0 0 s0).result = TokenResultValue.ok "tok" ∧
    (TokenStore.getAccessToken cfg0 envC 0 sA).refreshCalls = 1 := by
  have h1 := (c3_get_access_token cfg0 env0 0 s0 cfg0.refresh_window (Or.inr ⟨rfl, rfl⟩)).2
      (by decide)
  have h2 := (c3_get_access_token cfg0 envC 0 sA cfg0.refresh_window (Or.inr ⟨rfl, rfl⟩)).1
      (by decide)
  exact ⟨h1.1, h1.2.2.1, h2.1⟩

theorem decodeReqStr_eq_some (o : Option Json) (r : String)
    (h : decodeReqStr o = some r) : o = some (Json.str r) := by
  match o with
  | none => exact Option.noConfusion h
  | some Json.null => exact Option.noConfusion h
  | some (Json.bool b) => exact Option.noConfusion h
  | some (Json.num n) => exact Option.noConfusion h
  | some (Json.str s) => rw [show s = r from Option.some.inj h]
  | some (Json.arr xs) => exact Option.noConfusion h
  | some (Json.obj fs) => exact Option.noConfusion h

theorem fromJson_refresh_token (j : Json) (t : TokenFile)
    (h : TokenFile.fromJson j = some t) :
    Json.get j "refresh_token" = some (Json.str t.refresh_token) := by
  cases j <;> simp only [TokenFile.fromJson] at h <;> try exact Option.noConfusion h
  next fields =>
    simp only [bind, Option.bind_eq_some] at h
    obtain ⟨atok, ha, rt, hrt, ex, hex, us, hus, ci, hci, cs, hcs, te, hte, rw_, hrw, hmk⟩ := h
    have ht : t.refresh_token = rt := by
      have := Option.some.inj hmk
      rw [← this]
    rw [Json.get, decodeReqStr_eq_some _ _ hrt, ht]

/-- Claim C4 (amended): Load returns no value when the file cannot be read
or parsed or when the mandatory refresh_token field is absent (or not a
string); an empty refresh_token string is accepted, so a successfully
constructed store holds exactly the token file's refresh_token string,
which may be empty. -/
theorem c4_load_requires_refresh_token :
    (∀ path, TokenStore.new path none = none) ∧
    (∀ path fields, lookupField fields "refresh_token" = none →
        TokenStore.new path (some (Json.obj fields)) = none) ∧
    (∀ path j st, TokenStore.new path (some j) = some st →
        Json.get j "refresh_token" = some (Json.str st.token.refresh_token)) := by
  refine ⟨fun path => rfl, fun path fields h => ?_, fun path j st h => ?_⟩
  · simp only [TokenStore.new, TokenFile.fromJson]
    rw [h]
    cases decodeStrDefault (lookupField fields "access_token") <;>
      simp [decodeReqStr, bind]
  · simp only [TokenStore.new] at h
    cases hfj : TokenFile.fromJson j with
    | none => rw [hfj] at h; exact Option.noConfusion h
    | some t =>
      rw [hfj] at h
      have hst : st.token = t := by
        have := Option.some.inj h
        rw [← this]
      rw [hst]
      exact fromJson_refresh_token j t hfj

/-- Claim C4 counterexample: a token file whose refresh_token is present
but empty loads successfully (the claim requires Load to fail there). -/
theorem c4_counterexample :
    (TokenStore.new "/p" (some emptyRTJson)).map (fun st => st.token.refresh_token) =
      some "" := by
  rfl

/-- Claim C4 witness. -/
theorem c4_load_requires_refresh_token_witness :
    TokenStore.new "/x" none = none ∧
    TokenStore.new "/x" (some (Json.obj [])) = none ∧
    Json.get goodTokenJson "refresh_token" = some (Json.str "rt1") := by
  refine ⟨c4_load_requires_refresh_token.1 "/x",
          c4_load_requires_refresh_token.2.1 "/x" [] rfl, ?_⟩
  exact c4_load_requires_refresh_token.2.2 "/tok" goodTokenJson s0 (by decide)

/-- Claim C9: persisting a token record and reloading the same path yields
a store with the same access token, refresh token and integer expiry
(the expiry serialized and parsed back as the same integer). -/
theorem c9_write_load_roundtrip (path : String) (s : TokenStore) (e : Int)
    (hser : s.token.expiry = some (intToString e))
    (h1 : i64Min ≤ e) (h2 : e ≤ i64Max) :
    TokenStore.new path (some (TokenStore.writeContent s)) =
      some { path := path, token := s.token, expiry := e, refresh_attempts := 0 } := by
  simp only [TokenStore.writeContent, TokenStore.new]
  rw [fromJson_toJson]
  show some _ = _
  rw [hser]
  simp [Option.bind, parseI64_intToString e h1 h2]

/-- Claim C9 witness. -/
theorem c9_write_load_roundtrip_witness :
    TokenStore.new "/w" (some (TokenStore.writeContent sW)) =
      some { path := "/w", token := tfW, expiry := 12345, refresh_attempts := 0 } := by
  exact c9_write_load_roundtrip "/w" sW 12345 rfl (by decide) (by decide)

theorem getAccessToken_err_codes (cfg : Config) (env : RefreshEnv) (now : Int)
    (s : TokenStore) (e : Int)
    (h : (TokenStore.getAccessToken cfg env now s).result = TokenResultValue.err e) :
    e = SASL_BADPROT ∨ e = SASL_FAIL := by
  simp only [TokenStore.getAccessToken] at h
  split at h
  · cases hres : (TokenStore.refresh cfg env s).result with
    | err e2 =>
      rw [hres] at h
      simp only at h
      injection h with h1
      exact h1 ▸ refresh_err_codes cfg env s e2 hres
    | ok =>
      rw [hres] at h
      simp only at h
      exact TokenResultValue.noConfusion h
  · exact TokenResultValue.noConfusion h

theorem getAccessToken_ok_value (cfg : Config) (env : RefreshEnv) (now : Int)
    (s : TokenStore) (t : String)
    (h : (TokenStore.getAccessToken cfg env now s).result = TokenResultValue.ok t) :
    t = (TokenStore.getAccessToken cfg env now s).store.token.access_token := by
  simp only [TokenStore.getAccessToken] at h ⊢
  by_cases hdue : now + (s.token.refresh_window.bind parseI64).getD cfg.refresh_window ≥ s.expiry
  · rw [if_pos hdue] at h ⊢
    cases hres : (TokenStore.refresh cfg env s).result with
    | err e2 =>
      rw [hres] at h
      exact TokenResultValue.noConfusion h
    | ok =>
      rw [hres] at h
      injection h with h1
      exact h1.symm
  · rw [if_neg hdue] at h ⊢
    injection h with h1
    exact h1.symm

theorem initialStepAfterCanon_cases (cfg : Config) (ienv : InitialEnv)
    (fs : String → Option Json) (env : RefreshEnv) (c : Client) (an pw : String) :
    ((initialStepAfterCanon cfg ienv fs env c an pw).err = SASL_OK →
      (initialStepAfterCanon cfg ienv fs env c an pw).client.state = State.TokenSent ∧
      ∃ st, (initialStepAfterCanon cfg ienv fs env c an pw).client.token = some st ∧
        (initialStepAfterCanon cfg ienv fs env c an pw).toServer =
          wireResponse (initialStepAfterCanon cfg ienv fs env c an pw).client.user
            st.token.access_token) ∧
    ((initialStepAfterCanon cfg ienv fs env c an pw).err ≠ SASL_OK →
      (initialStepAfterCanon cfg ienv fs env c an pw).client.state = c.state ∧
      (initialStepAfterCanon cfg ienv fs env c an pw).toServer = "") := by
  dsimp only [initialStepAfterCanon]
  cases hnew : TokenStore.new pw (fs pw) with
  | none =>
    constructor
    · intro h
      have hf : SASL_FAIL = SASL_OK := h
      exact absurd hf (by decide)
    · intro h
      exact ⟨rfl, rfl⟩
  | some store =>
    dsimp only
    cases hres : (TokenStore.getAccessToken cfg env ienv.now store).result with
    | err e =>
      constructor
      · intro h
        have he : e = SASL_OK := h
        rcases getAccessToken_err_codes cfg env ienv.now store e hres with h5 | h5 <;>
          rw [h5] at he <;> exact absurd he (by decide)
      · intro h
        exact ⟨rfl, rfl⟩
    | ok tok =>
      constructor
      · intro h
        refine ⟨rfl, (TokenStore.getAccessToken cfg env ienv.now store).store, rfl, ?_⟩
        rw [getAccessToken_ok_value cfg env ienv.now store tok hres]
      · intro h
        exact absurd rfl h

theorem initialStep_cases (cfg : Config) (ienv : InitialEnv)
    (fs : String → Option Json) (env : RefreshEnv) (c : Client) :
    ((initialStep cfg ienv fs env c).err = SASL_OK →
      (initialStep cfg ienv fs env c).client.state = State.TokenSent ∧
      ∃ st, (initialStep cfg ienv fs env c).client.token = some st ∧
        (initialStep cfg ienv fs env c).toServer =
          wireResponse (initialStep cfg ienv fs env c).client.user
            st.token.access_token) ∧
    ((initialStep cfg ienv fs env c).err ≠ SASL_OK →
      (initialStep cfg ienv fs env c).client.state = c.state ∧
      (initialStep cfg ienv fs env c).toServer = "") := by
  dsimp only [initialStep]
  split
  · constructor
    · intro h
      cases hm : ienv.mallocOk <;> rw [hm] at h
      · have hn : SASL_NOMEM = SASL_OK := h
        exact absurd hn (by decide)
      · have hi : SASL_INTERACT = SASL_OK := h
        exact absurd hi (by decide)
    · intro h
      exact ⟨rfl, rfl⟩
  · cases hc : ienv.canon with
    | some e =>
      dsimp only
      by_cases he : e ≠ SASL_OK
      · rw [if_pos he]
        exact ⟨fun h => absurd h he, fun h => ⟨rfl, rfl⟩⟩
      · rw [if_neg he]
        exact initialStepAfterCanon_cases cfg ienv fs env c _ _
    | none =>
      dsimp only
      exact initialStepAfterCanon_cases cfg ienv fs env c _ _

theorem tokenSentStep_state_toServer (cfg : Config) (env : RefreshEnv)
    (msg : ServerMsg) (c : Client) :
    (tokenSentStep cfg env msg c).client.state = c.state ∧
    (tokenSentStep cfg env msg c).toServer = "" := by
  cases msg with
  | empty => exact ⟨rfl, rfl⟩
  | unparsable => exact ⟨rfl, rfl⟩
  | json j =>
    dsimp only [tokenSentStep]
    cases hs : jsonStrField j "status" with
    | none => exact ⟨rfl, rfl⟩
    | some st =>
      dsimp only
      split
      · cases c.token with
        | none => exact ⟨rfl, rfl⟩
        | some store =>
          dsimp only
          split <;> exact ⟨rfl, rfl⟩
      · split <;> exact ⟨rfl, rfl⟩

theorem doStep_initial (cfg : Config) (ienv : InitialEnv) (fs : String → Option Json)
    (env : RefreshEnv) (msg : ServerMsg) (c : Client) (h : c.state = State.Initial) :
    Client.doStep cfg ienv fs env msg c = initialStep cfg ienv fs env c := by
  unfold Client.doStep
  rw [h]

theorem doStep_tokenSent (cfg : Config) (ienv : InitialEnv) (fs : String → Option Json)
    (env : RefreshEnv) (msg : ServerMsg) (c : Client) (h : c.state = State.TokenSent) :
    Client.doStep cfg ienv fs env msg c = tokenSentStep cfg env msg c := by
  unfold Client.doStep
  rw [h]

/-- Claim C1: when the first step resolves identity and access token, the
outbound response is byte-for-byte user=<identity>\x01auth=Bearer
<access_token>\x01\x01, produced exactly on the Initial to TokenSent
transition (failing first steps emit nothing); the second step's outbound
message is always empty. -/
theorem c1_wire_response :
    (∀ (cfg : Config) (ienv : InitialEnv) (fs : String → Option Json)
       (env : RefreshEnv) (msg : ServerMsg) (c : Client), c.state = State.Initial →
      ((Client.doStep cfg ienv fs env msg c).err = SASL_OK →
        (Client.doStep cfg ienv fs env msg c).client.state = State.TokenSent ∧
        ∃ st, (Client.doStep cfg ienv fs env msg c).client.token = some st ∧
          (Client.doStep cfg ienv fs env msg c).toServer =
            wireResponse (Client.doStep cfg ienv fs env msg c).client.user
              st.token.access_token) ∧
      ((Client.doStep cfg ienv fs env msg c).err ≠ SASL_OK →
        (Client.doStep cfg ienv fs env msg c).toServer = "")) ∧
    (∀ (cfg : Config) (ienv : InitialEnv) (fs : String → Option Json)
       (env : RefreshEnv) (msg : ServerMsg) (c : Client), c.state = State.TokenSent →
      (Client.doStep cfg ienv fs env msg c).toServer = "") := by
  constructor
  · intro cfg ienv fs env msg c h
    rw [doStep_initial cfg ienv fs env msg c h]
    have hi := initialStep_cases cfg ienv fs env c
    exact ⟨hi.1, fun hne => (hi.2 hne).2⟩
  · intro cfg ienv fs env msg c h
    rw [doStep_tokenSent cfg ienv fs env msg c h]
    exact (tokenSentStep_state_toServer cfg env msg c).2

/-- Claim C1 witness. -/
theorem c1_wire_response_witness :
    (Client.doStep cfg0 ienv0 fs0 env0 ServerMsg.empty c0).client.state = State.TokenSent ∧
    (Client.doStep cfg0 ienv0 fs0 env0 ServerMsg.empty cTS).toServer = "" := by
  exact ⟨((c1_wire_response.1 cfg0 ienv0 fs0 env0 ServerMsg.empty c0 rfl).1 (by decide)).1,
         c1_wire_response.2 cfg0 ienv0 fs0 env0 ServerMsg.empty cTS rfl⟩

/-- Claim C8: a first step that fails or requests interaction leaves the
state Initial, the state becomes TokenSent exactly when the first step
succeeds, and no later step ever returns the state to Initial. -/
theorem c8_state_transitions (cfg : Config) (ienv : InitialEnv)
    (fs : String → Option Json) (env : RefreshEnv) (msg : ServerMsg) (c : Client) :
    (c.state = State.Initial →
      ((Client.doStep cfg ienv fs env msg c).err = SASL_OK →
        (Client.doStep cfg ienv fs env msg c).client.state = State.TokenSent) ∧
      ((Client.doStep cfg ienv fs env msg c).err ≠ SASL_OK →
        (Client.doStep cfg ienv fs env msg c).client.state = State.Initial)) ∧
    (c.state = State.TokenSent →
      (Client.doStep cfg ienv fs env msg c).client.state = State.TokenSent) := by
  constructor
  · intro h
    rw [doStep_initial cfg ienv fs env msg c h]
    have hi := initialStep_cases cfg ienv fs env c
    exact ⟨fun hok => (hi.1 hok).1, fun hne => h ▸ (hi.2 hne).1⟩
  · intro h
    rw [doStep_tokenSent cfg ienv fs env msg c h]
    rw [(tokenSentStep_state_toServer cfg env msg c).1, h]

/-- Claim C8 witness. -/
theorem c8_state_transitions_witness :
    (Client.doStep cfg0 ienv0 fs0 env0 ServerMsg.empty c0).client.state = State.TokenSent ∧
    (Client.doStep cfg0 ienv0 fs0 env0 ServerMsg.unparsable cTS).client.state =
      State.TokenSent := by
  exact ⟨((c8_state_transitions cfg0 ienv0 fs0 env0 ServerMsg.empty c0).1 rfl).1 (by decide),
         (c8_state_transitions cfg0 ienv0 fs0 env0 ServerMsg.unparsable cTS).2 rfl⟩

/-- Claim C6: in the TokenSent state, a JSON reply whose status is "400" or
"401" forces exactly one refresh on the session's store with an empty
outbound message; a successful refresh yields the recoverable try-again
result and a failed refresh propagates its error code. -/
theorem c6_token_rejection_triggers_refresh (cfg : Config) (ienv : InitialEnv)
    (fs : String → Option Json) (env : RefreshEnv) (c : Client) (s : TokenStore)
    (j : Json) (st : String) (hstate : c.state = State.TokenSent)
    (htok : c.token = some s) (hst : jsonStrField j "status" = some st)
    (h40x : st = "400" ∨ st = "401") :
    (Client.doStep cfg ienv fs env (ServerMsg.json j) c).refreshCalls = 1 ∧
    (Client.doStep cfg ienv fs env (ServerMsg.json j) c).toServer = "" ∧
    ((TokenStore.refresh cfg env s).result = RefreshResult.ok →
      (Client.doStep cfg ienv fs env (ServerMsg.json j) c).err = SASL_TRYAGAIN) ∧
    (∀ e, (TokenStore.refresh cfg env s).result = RefreshResult.err e →
      (Client.doStep cfg ienv fs env (ServerMsg.json j) c).err = e) := by
  rw [doStep_tokenSent cfg ienv fs env (ServerMsg.json j) c hstate]
  dsimp only [tokenSentStep]
  rw [hst]
  dsimp only
  rw [if_pos h40x, htok]
  dsimp only
  cases hres : (TokenStore.refresh cfg env s).result with
  | err e2 =>
    refine ⟨rfl, rfl, fun hok => RefreshResult.noConfusion hok, fun e he => ?_⟩
    cases he
    rfl
  | ok =>
    exact ⟨rfl, rfl, fun hok => rfl, fun e he => RefreshResult.noConfusion he⟩

/-- Claim C6 witness. -/
theorem c6_token_rejection_triggers_refresh_witness :
    (Client.doStep cfg0 ienv0 fs0 envC (ServerMsg.json status401Json) cTS).refreshCalls = 1 ∧
    (Client.doStep cfg0 ienv0 fs0 envC (ServerMsg.json status401Json) cTS).err =
      SASL_TRYAGAIN := by
  have h := c6_token_rejection_triggers_refresh cfg0 ienv0 fs0 envC cTS sA
      status401Json "401" rfl rfl rfl (Or.inr rfl)
  exact ⟨h.1, h.2.2.1 (by decide)⟩

/-- Claim C7: in the TokenSent state, empty bytes, unparsable bytes, a
missing status field and an empty status string all yield success; any
other non-empty status string except "400"/"401" yields a protocol error;
none of these cases attempts a refresh. -/
theorem c7_token_sent_non_reject (cfg : Config) (ienv : InitialEnv)
    (fs : String → Option Json) (env : RefreshEnv) (c : Client)
    (hstate : c.state = State.TokenSent) :
    (Client.doStep cfg ienv fs env ServerMsg.empty c =
      { client := c, err := SASL_OK, toServer := "", refreshCalls := 0 }) ∧
    (Client.doStep cfg ienv fs env ServerMsg.unparsable c =
      { client := c, err := SASL_OK, toServer := "", refreshCalls := 0 }) ∧
    (∀ j, jsonStrField j "status" = none →
      Client.doStep cfg ienv fs env (ServerMsg.json j) c =
        { client := c, err := SASL_OK, toServer := "", refreshCalls := 0 }) ∧
    (∀ j, jsonStrField j "status" = some "" →
      Client.doStep cfg ienv fs env (ServerMsg.json j) c =
        { client := c, err := SASL_OK, toServer := "", refreshCalls := 0 }) ∧
    (∀ j st, jsonStrField j "status" = some st → st ≠ "400" → st ≠ "401" → st ≠ "" →
      Client.doStep cfg ienv fs env (ServerMsg.json j) c =
        { client := c, err := SASL_BADPROT, toServer := "", refreshCalls := 0 }) := by
  refine ⟨?_, ?_, fun j h => ?_, fun j h => ?_, fun j st h h400 h401 hne => ?_⟩
  · rw [doStep_tokenSent cfg ienv fs env ServerMsg.empty c hstate]
    rfl
  · rw [doStep_tokenSent cfg ienv fs env ServerMsg.unparsable c hstate]
    rfl
  · rw [doStep_tokenSent cfg ienv fs env (ServerMsg.json j) c hstate]
    dsimp only [tokenSentStep]
    rw [h]
  · rw [doStep_tokenSent cfg ienv fs env (ServerMsg.json j) c hstate]
    dsimp only [tokenSentStep]
    rw [h]
    dsimp only
    rw [if_neg (by decide), if_neg (by decide)]
  · rw [doStep_tokenSent cfg ienv fs env (ServerMsg.json j) c hstate]
    dsimp only [tokenSentStep]
    rw [h]
    dsimp only
    rw [if_neg (not_or.mpr ⟨h400, h401⟩), if_pos hne]

/-- Claim C7 witness. -/
theorem c7_token_sent_non_reject_witness :
    Client.doStep cfg0 ienv0 fs0 env0 ServerMsg.empty cTS =
      { client := cTS, err := SASL_OK, toServer := "", refreshCalls := 0 } ∧
    Client.doStep cfg0 ienv0 fs0 env0 (ServerMsg.json status535Json) cTS =
      { client := cTS, err := SASL_BADPROT, toServer := "", refreshCalls := 0 } := by
  have h := c7_token_sent_non_reject cfg0 ienv0 fs0 env0 cTS rfl
  exact ⟨h.1, h.2.2.2.2 status535Json "535" rfl (by decide) (by decide) (by decide)⟩
